import Mathlib

/-!
Shallow embedding of the backfill task scheduler and execution engine from
`src/sync/installation.ts` of the github-for-jira repository, together with
theorems settling the frozen claims about it.

Conventions of the embedding:
* TypeScript `Date` values and millisecond timestamps are `Int` (ms since epoch).
* Nullable / optional fields are `Option _`; JS `undefined` and `null` are both `none`
  except where the distinction matters (noted locally).
* The Sequelize store is a pure `DB` value; each `subscription.update` /
  `RepoSyncState.updateRepoFromSubscription` call becomes a `StoreOp` event that is
  both recorded (for frame reasoning) and applied to the `DB`.
* `scheduleNextTask(delayMs)` calls are collected into a list of requested delays.
* Thrown exceptions become `Except` errors.
-/

namespace Backfill

/-- The task categories (`TaskType` in `sync.types.ts`): the repository-discovery
step plus the five per-repository categories. -/
inductive TaskType
  | repository
  | pull
  | branch
  | commit
  | build
  | deployment
deriving DecidableEq, Repr

/-- Status of one task category in the store: the DB column is a nullable string;
we model the three values that occur, with `none` for NULL (never started). -/
inductive TaskStatus
  | pending
  | complete
  | failed
deriving DecidableEq, Repr

/-- Enum `SyncStatus` of a whole Subscription (`models/subscription`). -/
inductive SyncStatus
  | PENDING
  | ACTIVE
  | COMPLETE
  | FAILED
deriving DecidableEq, Repr

/-- Source line 37: `const allTaskTypes: TaskType[] = ["pull", "branch", "commit", "build", "deployment"]`
(installation.ts line 37). -/
def allTaskTypes : List TaskType :=
  [.pull, .branch, .commit, .build, .deployment]

/-- lodash `intersection(a, b)`: the unique values of `a` (first occurrences kept)
that also occur in `b`; order and references come from the first array. -/
def lodashIntersection (a b : List TaskType) : List TaskType :=
  (a.eraseDups).filter (fun x => decide (x ∈ b))

/-- Function `getTargetTasks` (installation.ts lines 39-45): if the filter is present and
non-empty return `intersection(allTaskTypes, targetTasks)`, else all task types. -/
def getTargetTasks (targetTasks : Option (List TaskType)) : List TaskType :=
  match targetTasks with
  | some l => if l.length ≠ 0 then lodashIntersection allTaskTypes l else allTaskTypes
  | none => allTaskTypes

/-- The denormalized repository snapshot placed inside a `Task`
(`Repository` from `models/subscription`). `updated_at` keeps the raw
timestamp; the source renders it with `toISOString()`, an injective
rendering we abstract away. -/
structure Repository where
  id : Nat
  name : String
  full_name : String
  owner : String
  html_url : String
  updated_at : Option Int
deriving DecidableEq, Repr

/-- The `{} as Repository` cast used for the discovery task (installation.ts line 62). -/
def emptyRepository : Repository :=
  { id := 0, name := "", full_name := "", owner := "", html_url := "", updated_at := none }

/-- An in-memory unit of work (`Task` in `sync.types.ts`). -/
structure Task where
  task : TaskType
  repositoryId : Nat
  repository : Repository
  cursor : Option String
deriving DecidableEq, Repr

/-- One row of `RepoSyncState`: repository identity plus per-category status and
cursor columns and the `commitFrom` floor. -/
structure RepoSyncState where
  id : Nat
  repoId : Nat
  repoName : String
  repoOwner : String
  repoFullName : String
  repoUrl : String
  repoUpdatedAt : Option Int
  pullStatus : Option TaskStatus := none
  branchStatus : Option TaskStatus := none
  commitStatus : Option TaskStatus := none
  buildStatus : Option TaskStatus := none
  deploymentStatus : Option TaskStatus := none
  pullCursor : Option String := none
  branchCursor : Option String := none
  commitCursor : Option String := none
  buildCursor : Option String := none
  deploymentCursor : Option String := none
  commitFrom : Option Int := none
deriving DecidableEq, Repr

/-- A `Subscription` record: overall sync status, the repository-discovery
status/cursor pair, the backfill floor and the GitHub app id. -/
structure Subscription where
  syncStatus : Option SyncStatus := none
  repositoryStatus : Option TaskStatus := none
  repositoryCursor : Option String := none
  backfillSince : Option Int := none
  gitHubAppId : Option Nat := none
deriving DecidableEq, Repr

/-- Key builders of line 94: ``const getStatusKey = (type: TaskType) => `${type}Status` ``. -/
def TaskType.str : TaskType → String
  | .repository => "repository"
  | .pull => "pull"
  | .branch => "branch"
  | .commit => "commit"
  | .build => "build"
  | .deployment => "deployment"

def getStatusKey (t : TaskType) : String := t.str ++ "Status"

def getCursorKey (t : TaskType) : String := t.str ++ "Cursor"

/-- Dynamic property read `syncState[getStatusKey(taskType)]`: a `RepoSyncState`
row has no `repositoryStatus` column, so that read yields `undefined` (`none`). -/
def RepoSyncState.statusField (s : RepoSyncState) : TaskType → Option TaskStatus
  | .repository => none
  | .pull => s.pullStatus
  | .branch => s.branchStatus
  | .commit => s.commitStatus
  | .build => s.buildStatus
  | .deployment => s.deploymentStatus

/-- Dynamic property read `syncState[getCursorKey(task)]`. -/
def RepoSyncState.cursorField (s : RepoSyncState) : TaskType → Option String
  | .repository => none
  | .pull => s.pullCursor
  | .branch => s.branchCursor
  | .commit => s.commitCursor
  | .build => s.buildCursor
  | .deployment => s.deploymentCursor

/-- JS `x || undefined` on a nullable string: the empty string is falsy. -/
def jsOrUndefined : Option String → Option String
  | none => none
  | some s => if s = "" then none else some s

/-- The repository snapshot built in `getNextTask` (lines 79-86). -/
def repoSnapshot (s : RepoSyncState) : Repository :=
  { id := s.repoId
    name := s.repoName
    full_name := s.repoFullName
    owner := s.repoOwner
    html_url := s.repoUrl
    updated_at := s.repoUpdatedAt }

/-- Row order requested from the store:
`order: [["repoUpdatedAt", "DESC"], ["id", "DESC"]]` (line 69).
`a` comes before `b` when its `repoUpdatedAt` is larger (SQL `DESC` puts NULLs
first, i.e. NULL ranks above every value), ties broken by larger `id`. -/
def repoBefore (a b : RepoSyncState) : Bool :=
  match a.repoUpdatedAt, b.repoUpdatedAt with
  | none, none => decide (b.id ≤ a.id)
  | none, some _ => true
  | some _, none => false
  | some x, some y => if x = y then decide (b.id ≤ a.id) else decide (y < x)

/-- The order `repoBefore` as a decidable relation. -/
def repoOrder (a b : RepoSyncState) : Prop := repoBefore a b = true

instance : DecidableRel repoOrder := fun a b => by
  unfold repoOrder
  infer_instance

/-- Query `RepoSyncState.findAllFromSubscription(subscription, order)`: the stored rows
sorted by `(repoUpdatedAt DESC, id DESC)`. -/
def findAllFromSubscription (rows : List RepoSyncState) : List RepoSyncState :=
  List.insertionSort repoOrder rows

/-- Selection predicate of line 73:
`!syncState[getStatusKey(taskType)] || syncState[getStatusKey(taskType)] === "pending"`. -/
def outstanding (s : RepoSyncState) (t : TaskType) : Bool :=
  s.statusField t == none || s.statusField t == some .pending

/-- Body of the `for` loop in `getNextTask` (lines 71-89): the first candidate
category of this row, if any, packaged as a `Task`. -/
def taskForRepo (tasks : List TaskType) (s : RepoSyncState) : Option Task :=
  (tasks.find? (outstanding s)).map fun t =>
    { task := t
      repositoryId := s.repoId
      repository := repoSnapshot s
      cursor := jsOrUndefined (s.cursorField t) }

/-- Function `getNextTask` (installation.ts lines 57-91). `rows` is the subscription's
`RepoSyncState` table content; the store query orders it. -/
def getNextTask (subscription : Subscription) (rows : List RepoSyncState)
    (targetTasks : Option (List TaskType)) : Option Task :=
  if subscription.repositoryStatus ≠ some .complete then
    some
      { task := .repository
        repositoryId := 0
        repository := emptyRepository
        cursor := jsOrUndefined subscription.repositoryCursor }
  else
    (findAllFromSubscription rows).findSome? (taskForRepo (getTargetTasks targetTasks))

/-! ## Field merges and the store -/

/-- A value placed into an update-fields object (`Record<string, unknown>`). -/
inductive FieldValue
  | status (s : TaskStatus)
  | cursor (c : String)
  | date (d : Int)
  | sync (s : SyncStatus)
  | backfill (d : Option Int)
deriving DecidableEq, Repr

/-- An update-fields object: ordered key/value pairs. -/
abbrev Fields := List (String × FieldValue)

/-- Is this key one of `["repositoryStatus", "repositoryCursor"]`
(the `pick` list of `updateRepo`, line 458)? -/
def isSubscriptionField (k : String) : Bool :=
  k == "repositoryStatus" || k == "repositoryCursor"

/-- Applying one field of a `subscription.update(...)` merge. Keys a
Subscription does not have are ignored. -/
def Subscription.applyField (sub : Subscription) (kv : String × FieldValue) : Subscription :=
  match kv with
  | (k, .status st) => if k == "repositoryStatus" then { sub with repositoryStatus := some st } else sub
  | (k, .cursor c) => if k == "repositoryCursor" then { sub with repositoryCursor := some c } else sub
  | (k, .sync s) => if k == "syncStatus" then { sub with syncStatus := some s } else sub
  | (k, .backfill d) => if k == "backfillSince" then { sub with backfillSince := d } else sub
  | (_, .date _) => sub

/-- Applying one field of a `RepoSyncState.updateRepoFromSubscription` merge.
Keys a row does not have are ignored. -/
def RepoSyncState.applyField (r : RepoSyncState) (kv : String × FieldValue) : RepoSyncState :=
  match kv with
  | (k, .status st) =>
    if k == "pullStatus" then { r with pullStatus := some st }
    else if k == "branchStatus" then { r with branchStatus := some st }
    else if k == "commitStatus" then { r with commitStatus := some st }
    else if k == "buildStatus" then { r with buildStatus := some st }
    else if k == "deploymentStatus" then { r with deploymentStatus := some st }
    else r
  | (k, .cursor c) =>
    if k == "pullCursor" then { r with pullCursor := some c }
    else if k == "branchCursor" then { r with branchCursor := some c }
    else if k == "commitCursor" then { r with commitCursor := some c }
    else if k == "buildCursor" then { r with buildCursor := some c }
    else if k == "deploymentCursor" then { r with deploymentCursor := some c }
    else r
  | (k, .date d) => if k == "commitFrom" then { r with commitFrom := some d } else r
  | (_, .sync _) => r
  | (_, .backfill _) => r

/-- One store write: `subscription.update(fields)` or
`RepoSyncState.updateRepoFromSubscription(subscription, repoId, fields)`. -/
inductive StoreOp
  | subscriptionUpdate (fields : Fields)
  | repoSyncStateUpdate (repoId : Nat) (fields : Fields)
deriving DecidableEq, Repr

/-- The durable state visible to one subscription's sync. -/
structure DB where
  subscription : Option Subscription
  repoStates : List RepoSyncState
deriving DecidableEq, Repr

/-- Applying one store write to the state. A `repoSyncStateUpdate` merges its
fields into every row of the matching `repoId` (the table key). -/
def DB.applyOp (db : DB) : StoreOp → DB
  | .subscriptionUpdate fields =>
      { db with subscription := db.subscription.map (fields.foldl Subscription.applyField) }
  | .repoSyncStateUpdate repoId fields =>
      { db with
        repoStates := db.repoStates.map fun r =>
          if r.repoId == repoId then fields.foldl RepoSyncState.applyField r else r }

def applyOps (db : DB) (ops : List StoreOp) : DB :=
  ops.foldl DB.applyOp db

/-- Function `updateRepo` (installation.ts lines 457-464): `pick` the Subscription-owned
keys, `omit` for the row-owned keys, and issue an update for each non-empty part. -/
def updateRepo (repoId : Nat) (values : Fields) : List StoreOp :=
  let subscriptionValues := values.filter (fun kv => isSubscriptionField kv.1)
  let repoSyncStateValues := values.filter (fun kv => !isSubscriptionField kv.1)
  (if subscriptionValues.length ≠ 0 then [StoreOp.subscriptionUpdate subscriptionValues] else [])
    ++ (if repoSyncStateValues.length ≠ 0
        then [StoreOp.repoSyncStateUpdate repoId repoSyncStateValues] else [])

/-! ## Messages, results and outcomes -/

/-- The queue message body (`BackfillMessagePayload` in `sqs.types.ts`), with
dates as ms timestamps. -/
structure BackfillMessagePayload where
  installationId : Nat
  jiraHost : String
  targetTasks : Option (List TaskType) := none
  commitsFromDate : Option Int := none
  startTime : Option Int := none
  gitHubAppId : Option Nat := none
deriving DecidableEq, Repr

/-- One upstream record with its pagination cursor. -/
structure Edge where
  cursor : String
deriving DecidableEq, Repr

/-- Processor output (`TaskResultPayload`): only the part the scheduler reads. -/
structure TaskResultPayload where
  edges : Option (List Edge) := none
deriving DecidableEq, Repr

/-- The observable outcome of one scheduler routine: the new store state, the
store writes in order, and the delays requested through `scheduleNextTask`. -/
structure Outcome where
  db : DB
  ops : List StoreOp
  schedules : List Int
deriving DecidableEq, Repr

/-- Function `getBackfillSince` (lines 466-476): the message's commit floor, or NULL. -/
def getBackfillSince (data : BackfillMessagePayload) : Option Int :=
  data.commitsFromDate

/-- The fields object built in lines 129-138: the category-status field, plus
`commitFrom` when a complete `commit` task carries a message floor that is
earlier than the stored floor (or the stored floor is unset). -/
def buildUpdateFields (data : BackfillMessagePayload) (task : TaskType)
    (repositoryId : Nat) (isComplete : Bool) (rows : List RepoSyncState) : Fields :=
  let status : TaskStatus := if isComplete then .complete else .pending
  let base : Fields := [(getStatusKey task, .status status)]
  if isComplete && task == .commit then
    match data.commitsFromDate with
    | some d =>
      match rows.find? (fun r => r.repoId == repositoryId) with
      | some repoSync =>
        if (match repoSync.commitFrom with | none => true | some cf => decide (cf > d)) then
          base ++ [("commitFrom", .date d)]
        else base
      | none => base
    | none => base
  else base

/-- Lines 147-167 of `updateTaskStatusAndContinue`: the task completed, so
either finish the whole sync (no next task: mark the Subscription COMPLETE and
persist `backfillSince`) or request an immediate follow-up. `db1` is the store
state after the status merge and `ops1` the writes already performed. -/
def completionOutcome (data : BackfillMessagePayload) (ops1 : List StoreOp)
    (db1 : DB) : Outcome :=
  match db1.subscription with
  | some sub1 =>
    match getNextTask sub1 db1.repoStates data.targetTasks with
    | none =>
      let ops3 : List StoreOp :=
        [.subscriptionUpdate
          [("syncStatus", .sync .COMPLETE), ("backfillSince", .backfill (getBackfillSince data))]]
      ⟨applyOps db1 ops3, ops1 ++ ops3, []⟩
    | some _ => ⟨db1, ops1, [0]⟩
  | none => ⟨db1, ops1, []⟩

/-- Function `updateTaskStatusAndContinue` (installation.ts lines 105-168). -/
def updateTaskStatusAndContinue (data : BackfillMessagePayload)
    (taskResultPayload : TaskResultPayload) (task : TaskType) (repositoryId : Nat)
    (db : DB) : Outcome :=
  match db.subscription with
  | none => ⟨db, [], []⟩
  | some _ =>
    let edges := taskResultPayload.edges.getD []
    let isComplete := edges.isEmpty
    let ops1 := updateRepo repositoryId (buildUpdateFields data task repositoryId isComplete db.repoStates)
    let db1 := applyOps db ops1
    if isComplete = false then
      let lastCursor := (edges.getLast?.map Edge.cursor).getD ("")
      let ops2 := updateRepo repositoryId [(getCursorKey task, .cursor lastCursor)]
      ⟨applyOps db1 ops2, ops1 ++ ops2, [0]⟩
    else
      completionOutcome data ops1 db1

/-! ## Error classification (`github-client-errors`, modelled from the spec)

The error classes live outside `src/`; following the spec's classifier (§4.4)
an error is a `RateLimitingError` (carrying the reset epoch, in seconds), a
plain `GithubClientError` (carrying an HTTP status), a
`GithubClientGraphQLError` (subclass of `GithubClientError`, which can report
a GraphQL-level NOT_FOUND), or anything else. -/
inductive SyncError
  | rateLimiting (rateLimitReset : Int)
  | githubClient (status : Option Nat)
  | githubClientGraphQL (status : Option Nat) (notFoundFlag : Bool)
  | other (msg : String)
deriving DecidableEq, Repr

/-- Test `err instanceof GithubClientError` (`RateLimitingError` and
`GithubClientGraphQLError` are subclasses). -/
def SyncError.isGithubClientError : SyncError → Bool
  | .rateLimiting _ => true
  | .githubClient _ => true
  | .githubClientGraphQL _ _ => true
  | .other _ => false

/-- Accessor `err.status`. -/
def SyncError.status : SyncError → Option Nat
  | .rateLimiting _ => none
  | .githubClient s => s
  | .githubClientGraphQL s _ => s
  | .other _ => none

/-- Test `err instanceof GithubClientGraphQLError && err.isNotFound()`. -/
def SyncError.graphQLNotFound : SyncError → Bool
  | .githubClientGraphQL _ nf => nf
  | _ => false

/-- Function `isNotFoundGithubError` (installation.ts lines 178-180). NOTE: the source is
curried — `(err) => () => ...` — so applying it to an error yields a *thunk*;
the 404 / GraphQL-not-found test lives inside the thunk's body. -/
def isNotFoundGithubError (err : SyncError) : Unit → Bool := fun _ =>
  (err.status == some 404) || err.graphQLNotFound

/-- JS truthiness of a value of function type: always true. -/
def jsTruthyFn (_f : Unit → Bool) : Bool := true

/-- Class `TaskError` (installation.ts lines 47-55): wraps the failing task (deep
copied) with the causing error. -/
structure TaskError where
  task : Task
  cause : SyncError
deriving DecidableEq, Repr

/-- Lodash `_.cloneDeep` on a `Task`: on immutable values, the identity; the clone's
point in the source is insulation from later mutation of the original. -/
def cloneDeep (t : Task) : Task := t

/-- Function `handleBackfillError` (installation.ts lines 306-342). `now` is `Date.now()`.
The not-found test of line 333 applies JS truthiness to the *thunk* returned by
`isNotFoundGithubError err` (the thunk is never invoked), exactly as the source
does. -/
def handleBackfillError (err : SyncError) (data : BackfillMessagePayload)
    (nextTask : Task) (now : Int) (db : DB) : Except TaskError Outcome :=
  match err with
  | .rateLimiting rateLimitReset =>
    let delayMs := max (rateLimitReset * 1000 - now) 0
    if delayMs ≠ 0 then
      .ok ⟨db, [], [delayMs]⟩
    else
      .ok ⟨db, [], [0]⟩
  | _ =>
    if err.isGithubClientError && jsTruthyFn (isNotFoundGithubError err) then
      .ok (updateTaskStatusAndContinue data { edges := some [] } nextTask.task
            nextTask.repositoryId db)
    else
      .error { task := cloneDeep nextTask, cause := err }

/-- Function `markCurrentTaskAsFailedAndContinue` (installation.ts lines 351-369). -/
def markCurrentTaskAsFailedAndContinue (_data : BackfillMessagePayload)
    (nextTask : Task) (db : DB) : Outcome :=
  match db.subscription with
  | none => ⟨db, [], []⟩
  | some _ =>
    let ops1 := updateRepo nextTask.repositoryId [(getStatusKey nextTask.task, .status .failed)]
    let db1 := applyOps db ops1
    if nextTask.task = .repository then
      let ops2 : List StoreOp := [.subscriptionUpdate [("syncStatus", .sync .FAILED)]]
      ⟨applyOps db1 ops2, ops1 ++ ops2, []⟩
    else
      ⟨db1, ops1, [0]⟩

/-! ## Rescheduler -/

/-- Insert keeping `le`-order (insertion sort step). -/
def insertLe (le : Int → Int → Bool) (x : Int) : List Int → List Int
  | [] => [x]
  | y :: ys => if le x y then x :: y :: ys else y :: insertLe le x ys

/-- Insertion sort by a boolean `le`. -/
def sortLe (le : Int → Int → Bool) : List Int → List Int
  | [] => []
  | x :: xs => insertLe le x (sortLe le xs)

/-- Lexicographic order on character sequences by code unit (the comparison JS
uses for comparator-less `sort`). -/
def charListLt : List Char → List Char → Bool
  | [], [] => false
  | [], _ :: _ => true
  | _ :: _, [] => false
  | a :: as, b :: bs =>
    if a.toNat < b.toNat then true
    else if b.toNat < a.toNat then false
    else charListLt as bs

/-- JS string `a <= b` comparison on UTF-16 code units (ASCII here). -/
def jsStringLe (a b : String) : Bool := !(charListLt b.data a.data)

/-- JS `Array.prototype.sort()` with no comparator sorts by comparing the
elements' decimal string renderings, ascending. -/
def jsDefaultSort (l : List Int) : List Int :=
  sortLe (fun a b => jsStringLe (toString a) (toString b)) l

/-- Integer `Math.ceil(x / y)`, for positive `y`. -/
def jsCeilDiv (x y : Int) : Int := -((-x).fdiv y)

/-- Function `maybeScheduleNextTask` (installation.ts lines 372-387): the delays (in
seconds) of the messages actually sent through `sendSQSBackfillMessage`.
The source runs `sort().reverse()` on the requested delays, `shift`s the head
and sends one message with `Math.ceil((delayMs || 0) / 1000)`. -/
def maybeScheduleNextTask (nextTaskDelaysMs : List Int) : List Int :=
  if nextTaskDelaysMs.length ≠ 0 then
    let sorted := (jsDefaultSort nextTaskDelaysMs).reverse
    let delayMs := sorted.head?.getD 0
    [jsCeilDiv delayMs 1000]
  else
    []

/-- Modelled from the spec (§4.6 Rescheduler), for comparison with the code:
"select the **minimum** (highest priority/soonest) and send exactly one
follow-up queue message with that delay, converted to the transport's delay
unit (seconds, rounded up)". -/
def reschedulerSpecDelays : List Int → List Int
  | [] => []
  | d :: ds => [jsCeilDiv (ds.foldl min d) 1000]

/-! ## Observation functions on the store -/

/-- The stored commit floor of repository `k` (the `commitFrom` column of its row),
`none` when the repository has no row. -/
def storedCommitFloor (db : DB) (k : Nat) : Option (Option Int) :=
  (db.repoStates.find? (fun r => r.repoId == k)).map (·.commitFrom)

/-- The stored status of category `t` for repository `k`. -/
def storedStatus (db : DB) (k : Nat) (t : TaskType) : Option (Option TaskStatus) :=
  (db.repoStates.find? (fun r => r.repoId == k)).map (·.statusField t)

/-- The stored cursor of category `t` for repository `k`. -/
def storedCursor (db : DB) (k : Nat) (t : TaskType) : Option (Option String) :=
  (db.repoStates.find? (fun r => r.repoId == k)).map (·.cursorField t)

end Backfill

namespace Backfill

/-! ## Helper lemmas about field merges -/

theorem applyField_repoId (r : RepoSyncState) (kv : String × FieldValue) :
    (r.applyField kv).repoId = r.repoId := by
  unfold RepoSyncState.applyField
  rcases kv with ⟨k, v⟩
  cases v <;> dsimp only <;> (repeat' split) <;> rfl

theorem foldl_applyField_repoId (fields : Fields) (r : RepoSyncState) :
    (fields.foldl RepoSyncState.applyField r).repoId = r.repoId := by
  induction fields generalizing r with
  | nil => rfl
  | cons kv fs ih => rw [List.foldl_cons, ih, applyField_repoId]

theorem statusField_apply_status (r : RepoSyncState) (t : TaskType) (st : TaskStatus)
    (h : t ≠ TaskType.repository) :
    (r.applyField (getStatusKey t, .status st)).statusField t = some st := by
  cases t <;> first | exact absurd rfl h | rfl

theorem statusField_apply_commitFrom (r : RepoSyncState) (t : TaskType) (d : Int) :
    (r.applyField ("commitFrom", .date d)).statusField t = r.statusField t := by
  cases t <;> rfl

theorem cursorField_apply_status (r : RepoSyncState) (t u : TaskType) (st : TaskStatus) :
    (r.applyField (getStatusKey u, .status st)).cursorField t = r.cursorField t := by
  cases t <;> cases u <;> rfl

theorem cursorField_apply_commitFrom (r : RepoSyncState) (t : TaskType) (d : Int) :
    (r.applyField ("commitFrom", .date d)).cursorField t = r.cursorField t := by
  cases t <;> rfl

theorem commitFrom_apply_status (r : RepoSyncState) (u : TaskType) (st : TaskStatus) :
    (r.applyField (getStatusKey u, .status st)).commitFrom = r.commitFrom := by
  cases u <;> rfl

theorem commitFrom_apply_cursor (r : RepoSyncState) (u : TaskType) (c : String) :
    (r.applyField (getCursorKey u, .cursor c)).commitFrom = r.commitFrom := by
  cases u <;> rfl

theorem commitFrom_apply_date (r : RepoSyncState) (d : Int) :
    (r.applyField ("commitFrom", .date d)).commitFrom = some d := rfl

theorem isSubscriptionField_statusKey (t : TaskType) (h : t ≠ TaskType.repository) :
    isSubscriptionField (getStatusKey t) = false := by
  cases t <;> first | exact absurd rfl h | rfl

theorem isSubscriptionField_cursorKey (t : TaskType) (h : t ≠ TaskType.repository) :
    isSubscriptionField (getCursorKey t) = false := by
  cases t <;> first | exact absurd rfl h | rfl

/-- Routing: `updateRepo` acts as one field-routed merge: the Subscription receives
exactly the `pick`ed fields and every matching row exactly the `omit`ted ones. -/
theorem applyOps_updateRepo (db : DB) (rid : Nat) (values : Fields) :
    applyOps db (updateRepo rid values)
      = { subscription :=
            db.subscription.map
              ((values.filter (fun kv => isSubscriptionField kv.1)).foldl Subscription.applyField)
          repoStates :=
            db.repoStates.map fun r =>
              if r.repoId == rid
              then (values.filter (fun kv => !isSubscriptionField kv.1)).foldl
                     RepoSyncState.applyField r
              else r } := by
  unfold updateRepo applyOps
  by_cases h1 : (values.filter (fun kv => isSubscriptionField kv.1)) = []
    <;> by_cases h2 : (values.filter (fun kv => !isSubscriptionField kv.1)) = []
    <;> simp [h1, h2, DB.applyOp, ite_self, List.map_id']

theorem find?_map_guard (l : List RepoSyncState) (g : RepoSyncState → RepoSyncState)
    (hg : ∀ r, (g r).repoId = r.repoId) (rid k : Nat) :
    (l.map fun r => if r.repoId == rid then g r else r).find? (fun r => r.repoId == k)
      = (l.find? (fun r => r.repoId == k)).map (fun r => if r.repoId == rid then g r else r) := by
  induction l with
  | nil => rfl
  | cons a l ih =>
    have hpred : (((if a.repoId == rid then g a else a).repoId == k)) = ((a.repoId == k)) := by
      split <;> simp [hg]
    rw [List.map_cons, List.find?_cons, List.find?_cons, hpred]
    cases hab : (a.repoId == k)
    · simpa using ih
    · simp

/-- The effect of one `updateRepo` merge on any per-row observation `A`. -/
theorem stored_map_updateRepo {α : Type} (A : RepoSyncState → α) (db : DB)
    (rid k : Nat) (values : Fields) :
    ((applyOps db (updateRepo rid values)).repoStates.find? (fun r => r.repoId == k)).map A
      = (db.repoStates.find? (fun r => r.repoId == k)).map
          (fun r0 => if r0.repoId == rid
                     then A ((values.filter (fun kv => !isSubscriptionField kv.1)).foldl
                               RepoSyncState.applyField r0)
                     else A r0) := by
  rw [applyOps_updateRepo]
  rw [show ({ subscription := _, repoStates := _ } : DB).repoStates.find?
        (fun r => r.repoId == k) = _ from rfl]
  rw [find?_map_guard _ _ (foldl_applyField_repoId _) rid k]
  rw [Option.map_map]
  apply Option.map_congr
  intro r0 _
  simp only [Function.comp]
  split <;> rfl

theorem foldl_applyField_preserves {α : Type} (A : RepoSyncState → α) :
    ∀ (fields : Fields), (∀ kv ∈ fields, ∀ r, A (r.applyField kv) = A r) →
      ∀ r, A (fields.foldl RepoSyncState.applyField r) = A r := by
  intro fields
  induction fields with
  | nil => intro _ r; rfl
  | cons kv fs ih =>
    intro h r
    rw [List.foldl_cons, ih (fun x hx => h x (List.mem_cons_of_mem _ hx)) (r.applyField kv),
        h kv (List.mem_cons_self _ _)]

/-- A merge whose fields all preserve observation `A` leaves `A` unchanged on
every stored row. -/
theorem stored_map_updateRepo_preserved {α : Type} (A : RepoSyncState → α) (db : DB)
    (rid k : Nat) (values : Fields)
    (h : ∀ kv ∈ values, ∀ r, A (r.applyField kv) = A r) :
    ((applyOps db (updateRepo rid values)).repoStates.find? (fun r => r.repoId == k)).map A
      = ((db.repoStates.find? (fun r => r.repoId == k)).map A) := by
  rw [stored_map_updateRepo]
  apply Option.map_congr
  intro r0 _
  split
  · exact foldl_applyField_preserves A _
      (fun kv hkv => h kv (List.mem_of_mem_filter hkv)) r0
  · rfl

theorem repoStates_applyOp_subscriptionUpdate (db : DB) (f : Fields) :
    (DB.applyOp db (.subscriptionUpdate f)).repoStates = db.repoStates := rfl

theorem findSome?_append_none {α β : Type} (f : α → Option β) :
    ∀ (pre rest : List α), (∀ x ∈ pre, f x = none) →
      (pre ++ rest).findSome? f = rest.findSome? f := by
  intro pre
  induction pre with
  | nil => intro rest _; rfl
  | cons a l ih =>
    intro rest h
    have ha : f a = none := h a (List.mem_cons_self _ _)
    rw [List.cons_append, List.findSome?_cons, ha]
    exact ih rest (fun x hx => h x (List.mem_cons_of_mem _ hx))

/-- The update-fields object of lines 129-138 takes exactly two shapes: the
bare category-status field, or — for a complete `commit` task whose message
floor is earlier than the stored floor (or the stored floor is unset) — the
status field followed by the `commitFrom` write. -/
theorem buildUpdateFields_cases (data : BackfillMessagePayload) (task : TaskType)
    (rid : Nat) (isC : Bool) (rows : List RepoSyncState) :
    buildUpdateFields data task rid isC rows
      = [(getStatusKey task, .status (if isC then .complete else .pending))]
    ∨ (isC = true ∧ task = .commit
        ∧ ∃ d repoSync, data.commitsFromDate = some d
          ∧ rows.find? (fun r => r.repoId == rid) = some repoSync
          ∧ (repoSync.commitFrom = none ∨ ∃ cf, repoSync.commitFrom = some cf ∧ d < cf)
          ∧ buildUpdateFields data task rid isC rows
              = [(getStatusKey task, .status (if isC then .complete else .pending)),
                 ("commitFrom", .date d)]) := by
  unfold buildUpdateFields
  cases isC with
  | false => left; rfl
  | true =>
    cases task <;> try (left; rfl)
    case commit =>
      cases hd : data.commitsFromDate with
      | none => left; rfl
      | some d =>
        cases hfind : rows.find? (fun r => r.repoId == rid) with
        | none => left; rfl
        | some repoSync =>
          cases hcf : repoSync.commitFrom with
          | none =>
            right
            refine ⟨rfl, rfl, d, repoSync, rfl, rfl, Or.inl hcf, ?_⟩
            simp only [hcf]
            rfl
          | some cf =>
            by_cases hlt : d < cf
            · right
              refine ⟨rfl, rfl, d, repoSync, rfl, rfl, Or.inr ⟨cf, hcf, hlt⟩, ?_⟩
              have hg : decide (cf > d) = true := decide_eq_true hlt
              simp only [hcf, hg]
              rfl
            · left
              have hg : decide (cf > d) = false := decide_eq_false hlt
              simp only [hcf, hg]
              rfl

/-- The rows of the store after `updateTaskStatusAndContinue`: either nothing
happened (no Subscription), or the rows are those of the store after the
status-fields merge followed by the cursor merge (an empty merge when the task
completed — the final Subscription-completion write never touches rows). -/
theorem updateTaskStatusAndContinue_rows (data : BackfillMessagePayload)
    (payload : TaskResultPayload) (task : TaskType) (rid : Nat) (db : DB) :
    (db.subscription = none
      ∧ (updateTaskStatusAndContinue data payload task rid db).db = db)
    ∨ (updateTaskStatusAndContinue data payload task rid db).db.repoStates
        = (applyOps
            (applyOps db (updateRepo rid
              (buildUpdateFields data task rid (payload.edges.getD []).isEmpty db.repoStates)))
            (updateRepo rid
              (if (payload.edges.getD []).isEmpty then ([] : Fields)
               else [(getCursorKey task, FieldValue.cursor
                       (((payload.edges.getD []).getLast?.map Edge.cursor).getD ("")))]))).repoStates := by
  have hco : ∀ (ops1 : List StoreOp) (db1 : DB),
      (completionOutcome data ops1 db1).db.repoStates = db1.repoStates := by
    intro ops1 db1
    unfold completionOutcome
    rcases db1 with ⟨s, rws⟩
    cases s
    · rfl
    · dsimp only
      split <;> rfl
  rcases db with ⟨dbsub, rows⟩
  cases dbsub with
  | none => exact Or.inl ⟨rfl, rfl⟩
  | some sub =>
    right
    rcases payload with ⟨edges⟩
    rcases edges with _ | ⟨_ | ⟨e, es⟩⟩
    · exact hco _ _
    · exact hco _ _
    · rfl

/-! ## Concrete fixtures used by witnesses and counterexamples -/

def exRow : RepoSyncState :=
  { id := 1, repoId := 10, repoName := "repo", repoOwner := "owner",
    repoFullName := "owner/repo", repoUrl := "https://example.com/owner/repo",
    repoUpdatedAt := some 50 }

def exSub : Subscription := { repositoryStatus := some .complete }

def exDB : DB := { subscription := some exSub, repoStates := [exRow] }

def exData : BackfillMessagePayload := { installationId := 1, jiraHost := "https://x.example.net" }

def exTask : Task :=
  { task := .build, repositoryId := 10, repository := repoSnapshot exRow, cursor := none }

/-! ## Claims -/

/-- C8: for every filter list, `getTargetTasks` returns the fixed order
`[pull, branch, commit, build, deployment]` intersected with the filter,
preserving the fixed-order sequence (the result is always a sublist of the
fixed order, never reordered by the filter), and returns the full fixed order
when the filter is empty or absent. -/
theorem getTargetTasks_spec :
    getTargetTasks none = allTaskTypes
    ∧ getTargetTasks (some []) = allTaskTypes
    ∧ (∀ l : List TaskType, l ≠ [] →
        getTargetTasks (some l) = allTaskTypes.filter (fun t => decide (t ∈ l)))
    ∧ (∀ f : Option (List TaskType), (getTargetTasks f).Sublist allTaskTypes) := by
  have hed : allTaskTypes.eraseDups = allTaskTypes := rfl
  refine ⟨rfl, rfl, ?_, ?_⟩
  · intro l hl
    have hlen : l.length ≠ 0 := fun h => hl (List.length_eq_zero.mp h)
    simp only [getTargetTasks, if_pos hlen, lodashIntersection, hed]
  · intro f
    cases f with
    | none => exact List.Sublist.refl _
    | some l =>
      simp only [getTargetTasks]
      split
      · simp only [lodashIntersection, hed]
        exact List.filter_sublist _
      · exact List.Sublist.refl _

/-- Witness for C8 at the concrete filter `[build, pull]`. -/
theorem getTargetTasks_spec_witness :
    getTargetTasks (some [TaskType.build, TaskType.pull])
      = allTaskTypes.filter (fun t => decide (t ∈ [TaskType.build, TaskType.pull])) :=
  getTargetTasks_spec.2.2.1 [TaskType.build, TaskType.pull] (by decide)

/-- C4: for every `RateLimitingError`, `handleBackfillError` computes
`delay = max(resetTimestamp*1000 - now, 0)` and requests exactly one follow-up
with that delay (positive delay, or 0 when the limit has already reset); the
store is untouched and the error is never re-raised as a hard failure. -/
theorem handleBackfillError_rateLimit (reset now : Int) (data : BackfillMessagePayload)
    (nextTask : Task) (db : DB) :
    handleBackfillError (.rateLimiting reset) data nextTask now db
      = .ok ⟨db, [], [max (reset * 1000 - now) 0]⟩ := by
  unfold handleBackfillError
  split <;> simp_all

/-- C2 is refuted by the code (code bug): with requested delays
`[0ms, 5000ms]` the engine sends the single follow-up with delay 5 s — JS
`sort()` with no comparator orders by decimal-string rendering and `shift`
takes the head of the *reversed* (descending) order, i.e. the lexicographically
largest delay — while the spec's Rescheduler contract selects the minimum
(0 ms, hence 0 s). -/
theorem maybeScheduleNextTask_code_bug :
    maybeScheduleNextTask [0, 5000] = [5]
    ∧ reschedulerSpecDelays [0, 5000] = [0]
    ∧ maybeScheduleNextTask [0, 5000] ≠ reschedulerSpecDelays [0, 5000] := by
  refine ⟨by decide, by decide, by decide⟩

/-- The concrete unknown-class error used to exhibit the C1 code bug: a plain
`GithubClientError` with HTTP status 500 — neither a rate limit nor a 404 /
GraphQL not-found. -/
def exErr500 : SyncError := .githubClient (some 500)

/-- C1 is refuted by the code (code bug): `isNotFoundGithubError` is
curried, so line 333 tests the truthiness of the returned *thunk* (always
true) instead of calling it. A `GithubClientError` with status 500 — which the
claim (and the code's own comment: continue only on 404/NOT_FOUND) says must be
wrapped in a `TaskError` and re-raised — is instead routed into the normal
zero-edges completion path: no `TaskError` is raised and the task's category is
marked `complete`. -/
theorem handleBackfillError_unknown_error_code_bug :
    handleBackfillError exErr500 exData exTask 0 exDB
      = .ok (updateTaskStatusAndContinue exData { edges := some [] } .build 10 exDB)
    ∧ (∀ e : TaskError, handleBackfillError exErr500 exData exTask 0 exDB ≠ .error e)
    ∧ storedStatus (updateTaskStatusAndContinue exData { edges := some [] } .build 10 exDB).db
        10 .build = some (some .complete) := by
  refine ⟨rfl, ?_, by decide⟩
  intro e h
  rw [show handleBackfillError exErr500 exData exTask 0 exDB
        = .ok (updateTaskStatusAndContinue exData { edges := some [] } .build 10 exDB)
      from rfl] at h
  exact Except.noConfusion h

/-- C9: `markCurrentTaskAsFailedAndContinue` sets the given task's status to
`failed`; if the failed task is repository discovery it additionally sets the
Subscription's `syncStatus` to FAILED and requests no follow-up; for any other
category it requests one follow-up with delay 0 and leaves the Subscription
unchanged; with no Subscription it does nothing at all. -/
theorem markCurrentTaskAsFailedAndContinue_spec (data : BackfillMessagePayload)
    (nextTask : Task) (db : DB) :
    (db.subscription = none →
      markCurrentTaskAsFailedAndContinue data nextTask db = ⟨db, [], []⟩)
    ∧ (∀ sub, db.subscription = some sub →
        (nextTask.task = .repository →
          (markCurrentTaskAsFailedAndContinue data nextTask db).schedules = []
          ∧ (markCurrentTaskAsFailedAndContinue data nextTask db).db.subscription.map
              (·.syncStatus) = some (some .FAILED)
          ∧ (markCurrentTaskAsFailedAndContinue data nextTask db).db.subscription.map
              (·.repositoryStatus) = some (some .failed))
        ∧ (nextTask.task ≠ .repository →
          (markCurrentTaskAsFailedAndContinue data nextTask db).schedules = [0]
          ∧ storedStatus (markCurrentTaskAsFailedAndContinue data nextTask db).db
              nextTask.repositoryId nextTask.task
            = (storedStatus db nextTask.repositoryId nextTask.task).map (fun _ => some .failed)
          ∧ (markCurrentTaskAsFailedAndContinue data nextTask db).db.subscription
            = db.subscription)) := by
  constructor
  · intro hnone
    unfold markCurrentTaskAsFailedAndContinue
    rw [hnone]
  · intro sub hsub
    rcases db with ⟨dbsub, rows⟩
    obtain rfl : dbsub = some sub := hsub
    have hfcat : ∀ (t : TaskType), t ≠ TaskType.repository →
        ([(getStatusKey t, FieldValue.status TaskStatus.failed)].filter
            (fun kv => !isSubscriptionField kv.1))
          = [(getStatusKey t, FieldValue.status TaskStatus.failed)] := by
      intro t ht
      simp [List.filter_cons, isSubscriptionField_statusKey t ht]
    have hfcatPick : ∀ (t : TaskType), t ≠ TaskType.repository →
        ([(getStatusKey t, FieldValue.status TaskStatus.failed)].filter
            (fun kv => isSubscriptionField kv.1)) = [] := by
      intro t ht
      simp [List.filter_cons, isSubscriptionField_statusKey t ht]
    constructor
    · intro hrepo
      unfold markCurrentTaskAsFailedAndContinue
      rw [hrepo]
      exact ⟨rfl, rfl, rfl⟩
    · intro hcat
      unfold markCurrentTaskAsFailedAndContinue
      rw [if_neg hcat]
      refine ⟨rfl, ?_, ?_⟩
      · show ((applyOps ⟨some sub, rows⟩
            (updateRepo nextTask.repositoryId _)).repoStates.find? _).map _ = _
        rw [stored_map_updateRepo]
        unfold storedStatus
        rw [Option.map_map]
        apply Option.map_congr
        intro r0 hr0
        have hpred := List.find?_some hr0
        rw [if_pos hpred, hfcat _ hcat]
        simp only [List.foldl_cons, List.foldl_nil, Function.comp]
        exact statusField_apply_status r0 nextTask.task .failed hcat
      · show (applyOps ⟨some sub, rows⟩ (updateRepo nextTask.repositoryId _)).subscription = _
        rw [applyOps_updateRepo, hfcatPick _ hcat]
        rfl

/-- Witness for C9: failing the `build` task of repository 10 on the concrete
store schedules one immediate follow-up, marks `buildStatus` failed and leaves
the Subscription alone. -/
theorem markCurrentTaskAsFailedAndContinue_spec_witness :
    (markCurrentTaskAsFailedAndContinue exData exTask exDB).schedules = [0]
    ∧ storedStatus (markCurrentTaskAsFailedAndContinue exData exTask exDB).db 10 .build
      = (storedStatus exDB 10 .build).map (fun _ => some .failed)
    ∧ (markCurrentTaskAsFailedAndContinue exData exTask exDB).db.subscription
      = exDB.subscription :=
  ((markCurrentTaskAsFailedAndContinue_spec exData exTask exDB).2 exSub rfl).2 (by decide)

/-- C6 as stated is refuted: on a not-yet-complete result (non-empty edges)
`updateTaskStatusAndContinue` persists the status change and the advanced
cursor as *two* separate field-merges (two store writes), not one single
atomic merge carrying both fields. -/
theorem updateTaskStatusAndContinue_not_single_merge :
    (updateTaskStatusAndContinue exData { edges := some [⟨"c1"⟩, ⟨"c2"⟩] } .pull 10 exDB).ops
      = [.repoSyncStateUpdate 10 [("pullStatus", .status .pending)],
         .repoSyncStateUpdate 10 [("pullCursor", .cursor ("c2"))]]
    ∧ (updateTaskStatusAndContinue exData { edges := some [⟨"c1"⟩, ⟨"c2"⟩] } .pull 10
        exDB).ops.length ≠ 1 := by
  exact ⟨by decide, by decide⟩

/-- C6 (amended): on a not-complete result the status change is persisted
first and the advanced cursor (the cursor of the last edge) in a second,
separate field-merge, in that order; and every `updateRepo` merge routes each
field to its correct owner — the `repositoryStatus`/`repositoryCursor` fields
to the Subscription and all other fields to the matching `RepoSyncState` row —
transparently to the caller. -/
theorem updateTaskStatusAndContinue_two_merges (data : BackfillMessagePayload)
    (payload : TaskResultPayload) (task : TaskType) (rid : Nat) (db : DB)
    (e : Edge) (es : List Edge) (sub : Subscription)
    (hsub : db.subscription = some sub)
    (hedges : payload.edges = some (e :: es)) :
    ((updateTaskStatusAndContinue data payload task rid db).ops
      = updateRepo rid [(getStatusKey task, .status .pending)]
        ++ updateRepo rid [(getCursorKey task,
             .cursor (((e :: es).getLast?.map Edge.cursor).getD ("")))]
      ∧ (updateTaskStatusAndContinue data payload task rid db).schedules = [0])
    ∧ (∀ (rid2 : Nat) (values : Fields) (db2 : DB),
        applyOps db2 (updateRepo rid2 values)
          = { subscription :=
                db2.subscription.map
                  ((values.filter (fun kv => isSubscriptionField kv.1)).foldl
                    Subscription.applyField)
              repoStates :=
                db2.repoStates.map fun r =>
                  if r.repoId == rid2
                  then (values.filter (fun kv => !isSubscriptionField kv.1)).foldl
                         RepoSyncState.applyField r
                  else r }) := by
  refine ⟨?_, fun rid2 values db2 => applyOps_updateRepo db2 rid2 values⟩
  unfold updateTaskStatusAndContinue
  rw [hsub, hedges]
  simp [buildUpdateFields]

/-- Witness for C6 (amended) at a concrete two-edge `branch` result. -/
theorem updateTaskStatusAndContinue_two_merges_witness :
    (updateTaskStatusAndContinue exData { edges := some [⟨"b1"⟩, ⟨"b2"⟩] } .branch 10 exDB).ops
      = updateRepo 10 [(getStatusKey .branch, .status .pending)]
        ++ updateRepo 10 [(getCursorKey .branch, .cursor ("b2"))]
    ∧ (updateTaskStatusAndContinue exData { edges := some [⟨"b1"⟩, ⟨"b2"⟩] } .branch 10
        exDB).schedules = [0] :=
  (updateTaskStatusAndContinue_two_merges exData { edges := some [⟨"b1"⟩, ⟨"b2"⟩] }
    .branch 10 exDB ⟨"b1"⟩ [⟨"b2"⟩] exSub rfl rfl).1

/-- C7: `getNextTask` returns the repository-discovery task (with the
stored discovery cursor) whenever `repositoryStatus` is not complete; otherwise,
whenever the `(repoUpdatedAt DESC, id DESC)`-ordered rows split into a prefix of
repositories with no outstanding candidate category followed by a row whose
first candidate category (in filtered fixed order) is `t`, it returns that
category for that repository with the category's stored cursor (or none if
never started); and it returns none exactly when no repository has a candidate
category whose status is unset or `pending`. -/
theorem getNextTask_spec (sub : Subscription) (rows : List RepoSyncState)
    (target : Option (List TaskType)) :
    (sub.repositoryStatus ≠ some .complete →
      getNextTask sub rows target
        = some { task := .repository, repositoryId := 0, repository := emptyRepository,
                 cursor := jsOrUndefined sub.repositoryCursor })
    ∧ (sub.repositoryStatus = some .complete →
        ((getNextTask sub rows target = none ↔
           ∀ r ∈ rows, ∀ t ∈ getTargetTasks target, outstanding r t = false)
         ∧ ∀ (pre post : List RepoSyncState) (r : RepoSyncState) (t : TaskType),
             findAllFromSubscription rows = pre ++ r :: post →
             (∀ q ∈ pre, (getTargetTasks target).find? (outstanding q) = none) →
             (getTargetTasks target).find? (outstanding r) = some t →
             getNextTask sub rows target
               = some { task := t, repositoryId := r.repoId, repository := repoSnapshot r,
                        cursor := jsOrUndefined (r.cursorField t) })) := by
  have hperm := List.perm_insertionSort repoOrder rows
  constructor
  · intro h
    unfold getNextTask
    rw [if_pos h]
  · intro h
    have hnot : ¬(sub.repositoryStatus ≠ some .complete) := fun hne => hne h
    constructor
    · unfold getNextTask
      rw [if_neg hnot, List.findSome?_eq_none_iff]
      constructor
      · intro hall r hr t ht
        have := hall r ((hperm.mem_iff).mpr hr)
        unfold taskForRepo at this
        rw [Option.map_eq_none'] at this
        have := List.find?_eq_none.mp this t ht
        simpa using this
      · intro hall r hr
        unfold taskForRepo
        rw [Option.map_eq_none', List.find?_eq_none]
        intro t ht
        have := hall r ((hperm.mem_iff).mp hr) t ht
        simp [this]
    · intro pre post r t hsplit hpre hfind
      unfold getNextTask
      rw [if_neg hnot]
      show (findAllFromSubscription rows).findSome? _ = _
      rw [hsplit, findSome?_append_none _ pre _ ?hnone, List.findSome?_cons]
      case hnone =>
        intro q hq
        unfold taskForRepo
        rw [hpre q hq]
        rfl
      have hr : taskForRepo (getTargetTasks target) r
          = some { task := t, repositoryId := r.repoId, repository := repoSnapshot r,
                   cursor := jsOrUndefined (r.cursorField t) } := by
        unfold taskForRepo
        rw [hfind]
        rfl
      rw [hr]

/-- Witness for C7: with discovery still `pending` and stored cursor `"rc"`,
selection returns the repository-discovery task resuming from `"rc"`. -/
theorem getNextTask_spec_witness :
    getNextTask { repositoryStatus := some .pending, repositoryCursor := some ("rc") } [] none
      = some { task := .repository, repositoryId := 0, repository := emptyRepository,
               cursor := jsOrUndefined (some ("rc")) } :=
  (getNextTask_spec { repositoryStatus := some .pending, repositoryCursor := some ("rc") }
    [] none).1 (by decide)

/-- C10 (implicit): `getNextTask` only ever selects a category whose stored
status is unset or `pending` — a `failed` (or `complete`) category is never
returned — and the sync can still reach the no-next-task state with a `failed`
category present (here: `pull` failed, every other category complete). -/
theorem getNextTask_skips_failed :
    (∀ (sub : Subscription) (rows : List RepoSyncState) (target : Option (List TaskType))
        (task : Task),
       sub.repositoryStatus = some .complete →
       getNextTask sub rows target = some task →
       ∃ r, r ∈ rows ∧ r.repoId = task.repositoryId
         ∧ (r.statusField task.task = none ∨ r.statusField task.task = some .pending)
         ∧ task.task ∈ getTargetTasks target)
    ∧ getNextTask { repositoryStatus := some .complete }
        [{ exRow with
            pullStatus := some .failed,
            branchStatus := some .complete,
            commitStatus := some .complete,
            buildStatus := some .complete,
            deploymentStatus := some .complete }] none = none := by
  constructor
  · intro sub rows target task hc h
    unfold getNextTask at h
    rw [if_neg (fun hne => hne hc)] at h
    obtain ⟨r, hrmem, hr⟩ := List.exists_of_findSome?_eq_some h
    unfold taskForRepo at hr
    rw [Option.map_eq_some'] at hr
    obtain ⟨t, hfind, hpack⟩ := hr
    subst hpack
    refine ⟨r, ((List.perm_insertionSort repoOrder rows).mem_iff).mp hrmem, rfl, ?_, ?_⟩
    · have hout := List.find?_some hfind
      simpa [outstanding] using hout
    · exact List.mem_of_find?_eq_some hfind
  · decide

/-- C3: for every error reporting that the repository no longer exists
(404 status or a GraphQL-level not-found marker), `handleBackfillError` runs
the normal completion path with zero edges for the current task: the task's
category status becomes `complete` for that repository, no category cursor of
any repository is advanced, and continuation is evaluated by the completion
path (which, inside `updateTaskStatusAndContinue`, re-selects with
`getNextTask` and either finishes the sync or schedules the follow-up). -/
theorem handleBackfillError_notFound (err : SyncError) (data : BackfillMessagePayload)
    (nextTask : Task) (now : Int) (db : DB) (sub : Subscription) (r0 : RepoSyncState)
    (hghc : err.isGithubClientError = true)
    (hnf : err.status = some 404 ∨ err.graphQLNotFound = true)
    (hsub : db.subscription = some sub)
    (htask : nextTask.task ≠ .repository)
    (hrow : db.repoStates.find? (fun r => r.repoId == nextTask.repositoryId) = some r0) :
    handleBackfillError err data nextTask now db
      = .ok (updateTaskStatusAndContinue data { edges := some [] } nextTask.task
              nextTask.repositoryId db)
    ∧ storedStatus (updateTaskStatusAndContinue data { edges := some [] } nextTask.task
          nextTask.repositoryId db).db nextTask.repositoryId nextTask.task
        = some (some .complete)
    ∧ (∀ k t, storedCursor (updateTaskStatusAndContinue data { edges := some [] }
          nextTask.task nextTask.repositoryId db).db k t = storedCursor db k t) := by
  have h1 : handleBackfillError err data nextTask now db
      = .ok (updateTaskStatusAndContinue data { edges := some [] } nextTask.task
              nextTask.repositoryId db) := by
    cases err with
    | rateLimiting reset =>
      rcases hnf with h | h <;> simp [SyncError.status, SyncError.graphQLNotFound] at h
    | other msg => exact absurd hghc (by simp [SyncError.isGithubClientError])
    | githubClient s => rfl
    | githubClientGraphQL s nf => rfl
  have hrows : (updateTaskStatusAndContinue data { edges := some [] } nextTask.task
        nextTask.repositoryId db).db.repoStates
      = (applyOps db (updateRepo nextTask.repositoryId
          (buildUpdateFields data nextTask.task nextTask.repositoryId true
            db.repoStates))).repoStates := by
    rcases updateTaskStatusAndContinue_rows data { edges := some [] } nextTask.task
        nextTask.repositoryId db with ⟨hn, _⟩ | hr
    · rw [hsub] at hn
      exact Option.noConfusion hn
    · exact hr
  have hfilters : ∀ (v : FieldValue),
      (([(getStatusKey nextTask.task, v)] : Fields).filter
        (fun kv => !isSubscriptionField kv.1)) = [(getStatusKey nextTask.task, v)] := by
    intro v
    simp [List.filter_cons, isSubscriptionField_statusKey _ htask]
  have hcfrom : isSubscriptionField ("commitFrom") = false := rfl
  have hstat : storedStatus (updateTaskStatusAndContinue data { edges := some [] }
        nextTask.task nextTask.repositoryId db).db nextTask.repositoryId nextTask.task
      = some (some .complete) := by
    unfold storedStatus
    rw [hrows, stored_map_updateRepo, hrow, Option.map_some', if_pos (List.find?_some hrow)]
    rcases buildUpdateFields_cases data nextTask.task nextTask.repositoryId true db.repoStates
      with hbase | ⟨_, htask2, d, repoSync, hd, hfind, hguard, hwrite⟩
    · rw [hbase, hfilters]
      simp only [List.foldl_cons, List.foldl_nil]
      rw [statusField_apply_status _ _ _ htask]
      decide
    · rw [hwrite]
      have hfw : (([(getStatusKey nextTask.task,
            FieldValue.status (if true then TaskStatus.complete else TaskStatus.pending)),
            ("commitFrom", FieldValue.date d)] : Fields).filter
          (fun kv => !isSubscriptionField kv.1))
          = [(getStatusKey nextTask.task,
              FieldValue.status (if true then TaskStatus.complete else TaskStatus.pending)),
             ("commitFrom", FieldValue.date d)] := by
        simp [List.filter_cons, isSubscriptionField_statusKey _ htask, hcfrom]
      rw [hfw]
      simp only [List.foldl_cons, List.foldl_nil]
      rw [statusField_apply_commitFrom, statusField_apply_status _ _ _ htask]
      decide
  have hcurs : ∀ k t, storedCursor (updateTaskStatusAndContinue data { edges := some [] }
        nextTask.task nextTask.repositoryId db).db k t = storedCursor db k t := by
    intro k t
    unfold storedCursor
    rw [hrows]
    refine stored_map_updateRepo_preserved _ db _ k _ ?_
    intro kv hkv r
    rcases buildUpdateFields_cases data nextTask.task nextTask.repositoryId true db.repoStates
      with hbase | ⟨_, _, d, repoSync, _, _, _, hwrite⟩
    · rw [hbase, List.mem_singleton] at hkv
      subst hkv
      exact cursorField_apply_status r t nextTask.task _
    · rw [hwrite] at hkv
      rcases List.mem_cons.mp hkv with hkv1 | hkv2
      · subst hkv1
        exact cursorField_apply_status r t nextTask.task _
      · rw [List.mem_singleton] at hkv2
        subst hkv2
        exact cursorField_apply_commitFrom r t d
  exact ⟨h1, hstat, hcurs⟩

/-- Witness for C3: a concrete 404 `GithubClientError` while running `build` of
repository 10 marks `buildStatus` complete and leaves the stored cursor alone. -/
theorem handleBackfillError_notFound_witness :
    handleBackfillError (.githubClient (some 404)) exData exTask 0 exDB
      = .ok (updateTaskStatusAndContinue exData { edges := some [] } .build 10 exDB)
    ∧ storedStatus (updateTaskStatusAndContinue exData { edges := some [] } .build 10
        exDB).db 10 .build = some (some .complete)
    ∧ storedCursor (updateTaskStatusAndContinue exData { edges := some [] } .build 10
        exDB).db 10 .build = storedCursor exDB 10 .build :=
  ⟨(handleBackfillError_notFound (.githubClient (some 404)) exData exTask 0 exDB exSub exRow
      rfl (Or.inl rfl) rfl (by decide) rfl).1,
   (handleBackfillError_notFound (.githubClient (some 404)) exData exTask 0 exDB exSub exRow
      rfl (Or.inl rfl) rfl (by decide) rfl).2.1,
   (handleBackfillError_notFound (.githubClient (some 404)) exData exTask 0 exDB exSub exRow
      rfl (Or.inl rfl) rfl (by decide) rfl).2.2 10 .build⟩

/-- C5: across `updateTaskStatusAndContinue` the stored per-repository
commit floor (`commitFrom`) only ever decreases (moves to an earlier date) or
stays the same, never increases: for every repository key `k`, either the
stored floor is unchanged, or the task is a *complete* `commit` task whose
message carries a floor `d`, the new stored floor is `d`, and the old stored
floor was unset or strictly later than `d` — so replaying an already-complete
commit result with the same floor leaves the floor unchanged. -/
theorem commitFrom_monotone (data : BackfillMessagePayload)
    (payload : TaskResultPayload) (task : TaskType) (rid : Nat) (db : DB) (k : Nat) :
    storedCommitFloor (updateTaskStatusAndContinue data payload task rid db).db k
      = storedCommitFloor db k
    ∨ ((payload.edges.getD []).isEmpty = true ∧ task = .commit
        ∧ ∃ d, data.commitsFromDate = some d
          ∧ storedCommitFloor (updateTaskStatusAndContinue data payload task rid db).db k
              = some (some d)
          ∧ (storedCommitFloor db k = some none
             ∨ ∃ cf, storedCommitFloor db k = some (some cf) ∧ d < cf)) := by
  rcases updateTaskStatusAndContinue_rows data payload task rid db with ⟨_, hdb⟩ | hrows
  · left
    rw [hdb]
  · have h2 : ∀ (X : DB),
        ((applyOps X (updateRepo rid
            (if (payload.edges.getD []).isEmpty then ([] : Fields)
             else [(getCursorKey task, FieldValue.cursor
                     (((payload.edges.getD []).getLast?.map Edge.cursor).getD ("")))]))).repoStates.find?
          (fun r => r.repoId == k)).map (·.commitFrom)
          = (X.repoStates.find? (fun r => r.repoId == k)).map (·.commitFrom) := by
      intro X
      apply stored_map_updateRepo_preserved
      intro kv hkv r
      split at hkv
      · exact absurd hkv (List.not_mem_nil kv)
      · rw [List.mem_singleton] at hkv
        subst hkv
        exact commitFrom_apply_cursor r task _
    have hres : storedCommitFloor (updateTaskStatusAndContinue data payload task rid db).db k
        = ((applyOps db (updateRepo rid
            (buildUpdateFields data task rid (payload.edges.getD []).isEmpty
              db.repoStates))).repoStates.find? (fun r => r.repoId == k)).map (·.commitFrom) := by
      unfold storedCommitFloor
      rw [hrows]
      exact h2 _
    rcases buildUpdateFields_cases data task rid (payload.edges.getD []).isEmpty db.repoStates
      with hbase | ⟨hisC, htask, d, repoSync, hd, hfind, hguard, hwrite⟩
    · left
      rw [hres, hbase]
      exact stored_map_updateRepo_preserved (·.commitFrom) db rid k _ (by
        intro kv hkv r
        rw [List.mem_singleton] at hkv
        subst hkv
        exact commitFrom_apply_status r task _)
    · subst htask
      rw [hres, hwrite, stored_map_updateRepo]
      cases hfk : db.repoStates.find? (fun r => r.repoId == k) with
      | none =>
        left
        unfold storedCommitFloor
        rw [hfk]
        rfl
      | some r0 =>
        have hk := List.find?_some hfk
        by_cases hr : (r0.repoId == rid) = true
        · have hkr : k = rid := by
            have e1 : r0.repoId = k := by simpa using hk
            have e2 : r0.repoId = rid := by simpa using hr
            rw [← e1, e2]
          subst hkr
          have hr0 : r0 = repoSync := by
            rw [hfk] at hfind
            exact Option.some.inj hfind
          subst hr0
          right
          have hold : storedCommitFloor db k = some r0.commitFrom := by
            unfold storedCommitFloor
            rw [hfk]
            rfl
          refine ⟨hisC, rfl, d, hd, ?_, ?_⟩
          · rw [Option.map_some', if_pos hr]
            rfl
          · rcases hguard with hg | ⟨cf, hg, hlt⟩
            · exact Or.inl (by rw [hold, hg])
            · exact Or.inr ⟨cf, by rw [hold, hg], hlt⟩
        · left
          rw [Option.map_some', if_neg hr]
          unfold storedCommitFloor
          rw [hfk]
          rfl

/-- Witness for C10: on a store whose only repository has every category unset,
the selected task (`pull` of repository 10) indeed has unset status. -/
theorem getNextTask_skips_failed_witness :
    ∃ r, r ∈ [exRow] ∧ r.repoId = 10
      ∧ (r.statusField TaskType.pull = none ∨ r.statusField TaskType.pull = some .pending)
      ∧ TaskType.pull ∈ getTargetTasks none :=
  getNextTask_skips_failed.1 exSub [exRow] none
    { task := .pull, repositoryId := 10, repository := repoSnapshot exRow, cursor := none }
    rfl (by decide)

end Backfill
